import Mathlib

/-!
Verification development for the multi-agent request router
(coordinating "Main Agent" with registry, query analyzer, dependency
analyzer, execution coordinator, context propagator and response
aggregator).  The definitions below are shallow embeddings of the Python
sources:

* `src/main_agent.py`   — `AgentRegistry` (register / discover / skill
  index) and `MainAgentExecutor` (`_call_agent`, dependency analysis,
  sequential execution loop, response aggregation);
* `src/context_manager.py` — `ContextManager` (sessions, contextual
  requests, response storage, context extraction);
* `src/dynamic_query_analyzer.py` — `DynamicQueryAnalyzer`.

Python dictionaries are modelled as insertion-ordered association lists
(`alookup` / `aupdate`), matching CPython semantics: a lookup finds the
unique entry for a key, an assignment overwrites in place or appends a
new key at the end.  Calls to the external text-understanding capability
(the LLM client) and the HTTP transport are modelled as oracle values
describing the outcome of the call; everything the repository itself
computes is translated directly.  Wall-clock timestamp fields
(`registered_at`, `created_at`, `updated_at`, `last_health_check`) are
omitted: no control flow in the embedded operations reads them.
-/

/-- Lookup in an association list (Python `dict` access / `.get`). -/
def alookup {α : Type} : List (String × α) → String → Option α
  | [], _ => none
  | p :: rest, k => if p.1 = k then some p.2 else alookup rest k

/-- Update/insert in an association list (Python `dict` assignment):
overwrite in place when the key exists, otherwise append at the end. -/
def aupdate {α : Type} : List (String × α) → String → α → List (String × α)
  | [], k, v => [(k, v)]
  | p :: rest, k, v => if p.1 = k then (k, v) :: rest else p :: aupdate rest k v

theorem alookup_aupdate_self {α : Type} (m : List (String × α)) (k : String) (v : α) :
    alookup (aupdate m k v) k = some v := by
  induction m with
  | nil => simp [aupdate, alookup]
  | cons p rest ih =>
    by_cases h : p.1 = k
    · simp [aupdate, alookup, h]
    · simp [aupdate, alookup, h, ih]

theorem alookup_aupdate_ne {α : Type} (m : List (String × α)) (k k' : String) (v : α)
    (h : k' ≠ k) : alookup (aupdate m k v) k' = alookup m k' := by
  have hks : ¬ k = k' := fun hh => h hh.symm
  induction m with
  | nil => simp [aupdate, alookup, hks]
  | cons p rest ih =>
    by_cases hp : p.1 = k
    · subst hp
      simp [aupdate, alookup, hks]
    · simp [aupdate, alookup, hp, ih]

theorem aupdate_ne_nil {α : Type} (m : List (String × α)) (k : String) (v : α) :
    aupdate m k v ≠ [] := by
  cases m with
  | nil => simp [aupdate]
  | cons p rest =>
    by_cases h : p.1 = k <;> simp [aupdate, h]

/-! ## Agent registry (`src/main_agent.py`, class `AgentRegistry`) -/

/-- One entry of an agent card's `skills` list.  The registry logic only
ever reads `skill.get("id")`; the remaining metadata fields of a skill
dictionary are not consulted by the embedded operations. -/
structure SkillEntry where
  id : Option String
  deriving Repr, DecidableEq

/-- The JSON value stored under the `skills` key of an agent card: either a
list of skill dictionaries or some non-list value (the validation in
`_validate_agent_card` distinguishes exactly these two cases). -/
inductive SkillsValue where
  | list (entries : List SkillEntry)
  | nonList
  deriving Repr, DecidableEq

/-- The fields of an agent-card dictionary read by `register_agent` and
`_validate_agent_card`.  `none` models an absent key. -/
structure AgentCard where
  name : Option String
  description : Option String
  url : Option String
  skills : Option SkillsValue
  deriving Repr, DecidableEq

/-- `RegisteredAgent` dataclass (timestamps omitted, see header note). -/
structure RegisteredAgent where
  agent_id : String
  name : String
  description : String
  url : String
  skills : List SkillEntry
  is_healthy : Bool
  deriving Repr, DecidableEq

/-- `AgentRegistry` state: `agents` (agent_id → RegisteredAgent) and
`skill_to_agents` (skill_id → list of agent_ids). -/
structure AgentRegistry where
  agents : List (String × RegisteredAgent)
  skill_to_agents : List (String × List String)
  deriving Repr, DecidableEq

def emptyRegistry : AgentRegistry := { agents := [], skill_to_agents := [] }

/-- Maximal run of leading decimal digits of a character list. -/
def leadingDigits : List Char → List Char
  | [] => []
  | c :: cs => if c.isDigit then c :: leadingDigits cs else []

/-- Model of `re.search(r":(\d+)", url)`: the first colon that is followed
by at least one digit yields the maximal digit run after it. -/
def findPortDigits : List Char → Option (List Char)
  | [] => none
  | c :: cs =>
    if c = ':' && (match cs with | d :: _ => d.isDigit | [] => false) then
      some (leadingDigits cs)
    else findPortDigits cs

def extractPort (url : String) : Option String :=
  (findPortDigits url.data).map fun l => String.mk l

/-- `name.lower().replace(" ", "-")` : both operations act character-wise
(ASCII lowering; every space becomes a hyphen). -/
def lowerHyphen (name : String) : String :=
  String.mk (name.data.map fun c => if c = ' ' then '-' else c.toLower)

/-- Identity derivation in `register_agent`: lowercased, hyphenated name,
suffixed with the port extracted from the URL when one is present. -/
def deriveAgentId (name url : String) : String :=
  match extractPort url with
  | some port => lowerHyphen name ++ "-" ++ port
  | none => lowerHyphen name

/-- `AgentRegistry._validate_agent_card`: all four required keys present
and the `skills` value list-typed. -/
def validate_agent_card (card : AgentCard) : Bool :=
  card.name.isSome && card.description.isSome && card.url.isSome &&
    (match card.skills with
     | some (.list _) => true
     | _ => false)

/-- `agent_card.get("skills", [])` after validation (a non-list value can
only be observed on paths where validation failed). -/
def cardSkillEntries (card : AgentCard) : List SkillEntry :=
  match card.skills with
  | some (.list l) => l
  | _ => []

/-- The `RegisteredAgent` record built by a successful `register_agent`. -/
def mkRegisteredAgent (aid : String) (card : AgentCard) : RegisteredAgent :=
  { agent_id := aid
    name := card.name.getD "Unknown"
    description := card.description.getD ""
    url := card.url.getD ""
    skills := cardSkillEntries card
    is_healthy := true }

/-- One iteration of the loop in `_update_skill_index`: create the bucket
for `sid` when missing, then append `aid` if it is not already there. -/
def addSkillToIndex (idx : List (String × List String)) (sid aid : String) :
    List (String × List String) :=
  match alookup idx sid with
  | none => aupdate idx sid [aid]
  | some bucket => if aid ∈ bucket then idx else aupdate idx sid (bucket ++ [aid])

/-- `AgentRegistry._update_skill_index`: for every skill whose `id` is a
truthy string (present and non-empty), index the agent under it. -/
def update_skill_index (idx : List (String × List String)) (aid : String)
    (skills : List SkillEntry) : List (String × List String) :=
  skills.foldl
    (fun acc sk =>
      match sk.id with
      | some sid => if sid ≠ "" then addSkillToIndex acc sid aid else acc
      | none => acc)
    idx

/-- `AgentRegistry.register_agent`.  Returns the success flag together
with the registry state after the call.  A falsy `url` (absent key or
empty string) and a card failing validation are rejected before any state
is touched; on success the agent map is upserted and the skill index
updated. -/
def register_agent (reg : AgentRegistry) (card : AgentCard) : Bool × AgentRegistry :=
  match card.url with
  | none => (false, reg)
  | some url =>
    if url = "" then (false, reg)
    else
      let aid := deriveAgentId (card.name.getD "Unknown") url
      if validate_agent_card card then
        (true,
          { agents := aupdate reg.agents aid (mkRegisteredAgent aid card)
            skill_to_agents := update_skill_index reg.skill_to_agents aid (cardSkillEntries card) })
      else (false, reg)

/-- `AgentRegistry.discover_agents_by_skill`: the ids in the skill bucket,
resolved through the agent map, keeping only healthy agents, in bucket
order. -/
def discover_agents_by_skill (reg : AgentRegistry) (skill_id : String) :
    List RegisteredAgent :=
  ((alookup reg.skill_to_agents skill_id).getD []).filterMap fun aid =>
    match alookup reg.agents aid with
    | some a => if a.is_healthy then some a else none
    | none => none

/-- `AgentRegistry.discover_agents_by_skills` (batch form). -/
def discover_agents_by_skills (reg : AgentRegistry) (skill_ids : List String) :
    List (String × List RegisteredAgent) :=
  skill_ids.map fun sid => (sid, discover_agents_by_skill reg sid)

/-! ## Registry lemmas -/

/-- The bucket the skill index holds for `sid` (empty when the key is
absent), as read by `discover_agents_by_skill`. -/
def bucketOf (idx : List (String × List String)) (sid : String) : List String :=
  (alookup idx sid).getD []

theorem mem_bucketOf_addSkill_self (idx : List (String × List String)) (sid aid : String) :
    aid ∈ bucketOf (addSkillToIndex idx sid aid) sid := by
  unfold addSkillToIndex
  cases h : alookup idx sid with
  | none => simp [bucketOf, alookup_aupdate_self]
  | some bucket =>
    by_cases hm : aid ∈ bucket
    · simp [bucketOf, h, hm]
    · simp [bucketOf, hm, alookup_aupdate_self]

theorem bucketOf_addSkill_ne (idx : List (String × List String)) (sid sid' aid : String)
    (h : sid' ≠ sid) :
    bucketOf (addSkillToIndex idx sid aid) sid' = bucketOf idx sid' := by
  unfold addSkillToIndex
  cases hl : alookup idx sid with
  | none => simp [bucketOf, alookup_aupdate_ne _ _ _ _ h]
  | some bucket =>
    by_cases hm : aid ∈ bucket
    · simp [hm]
    · simp [bucketOf, hm, alookup_aupdate_ne _ _ _ _ h]

theorem mem_bucketOf_addSkill_mono (idx : List (String × List String)) (sid sid' aid x : String)
    (hx : x ∈ bucketOf idx sid') :
    x ∈ bucketOf (addSkillToIndex idx sid aid) sid' := by
  by_cases h : sid' = sid
  · subst h
    unfold addSkillToIndex
    cases hl : alookup idx sid' with
    | none => simp [bucketOf, hl] at hx
    | some bucket =>
      have hx' : x ∈ bucket := by simpa [bucketOf, hl] using hx
      by_cases hm : aid ∈ bucket
      · simpa [bucketOf, hl, hm] using hx'
      · have e : bucketOf (aupdate idx sid' (bucket ++ [aid])) sid' = bucket ++ [aid] := by
          simp [bucketOf, alookup_aupdate_self]
        simp only [hm, if_false]
        rw [e]
        exact List.mem_append.mpr (Or.inl hx')
  · rwa [bucketOf_addSkill_ne _ _ _ _ h]

/-- Stepping `update_skill_index` over one skill entry. -/
def skillIndexStep (idx : List (String × List String)) (aid : String) (sk : SkillEntry) :
    List (String × List String) :=
  match sk.id with
  | some sid => if sid ≠ "" then addSkillToIndex idx sid aid else idx
  | none => idx

theorem update_skill_index_cons (idx : List (String × List String)) (aid : String)
    (sk : SkillEntry) (rest : List SkillEntry) :
    update_skill_index idx aid (sk :: rest) =
      update_skill_index (skillIndexStep idx aid sk) aid rest := rfl

theorem mem_bucketOf_update_mono (aid : String) (skills : List SkillEntry) :
    ∀ (idx : List (String × List String)) (sid x : String), x ∈ bucketOf idx sid →
      x ∈ bucketOf (update_skill_index idx aid skills) sid := by
  induction skills with
  | nil => intro idx sid x hx; simpa [update_skill_index] using hx
  | cons sk rest ih =>
    intro idx sid x hx
    rw [update_skill_index_cons]
    refine ih _ _ _ ?_
    unfold skillIndexStep
    cases hsk : sk.id with
    | none => exact hx
    | some s =>
      by_cases hs : s = ""
      · simpa [hs] using hx
      · simpa [hs] using mem_bucketOf_addSkill_mono idx s sid aid x hx

theorem mem_bucketOf_update_self (aid : String) (skills : List SkillEntry) :
    ∀ (idx : List (String × List String)) (sk : SkillEntry), sk ∈ skills →
      ∀ sid, sk.id = some sid → sid ≠ "" →
        aid ∈ bucketOf (update_skill_index idx aid skills) sid := by
  induction skills with
  | nil => intro idx sk h; cases h
  | cons sk0 rest ih =>
    intro idx sk hmem sid hid hne
    rcases List.mem_cons.mp hmem with h0 | hrest
    · subst h0
      rw [update_skill_index_cons]
      have hstep : skillIndexStep idx aid sk = addSkillToIndex idx sid aid := by
        unfold skillIndexStep
        simp [hid, hne]
      rw [hstep]
      exact mem_bucketOf_update_mono aid rest _ sid aid
        (mem_bucketOf_addSkill_self idx sid aid)
    · rw [update_skill_index_cons]
      exact ih _ sk hrest sid hid hne

theorem register_agent_success (reg : AgentRegistry) (card : AgentCard) (u : String)
    (hu : card.url = some u) (hne : u ≠ "") (hv : validate_agent_card card = true) :
    register_agent reg card =
      (true,
        { agents := aupdate reg.agents (deriveAgentId (card.name.getD "Unknown") u)
            (mkRegisteredAgent (deriveAgentId (card.name.getD "Unknown") u) card)
          skill_to_agents := update_skill_index reg.skill_to_agents
            (deriveAgentId (card.name.getD "Unknown") u) (cardSkillEntries card) }) := by
  simp [register_agent, hu, hne, hv]

theorem mem_discover_of_bucket (reg : AgentRegistry) (sid aid : String) (a : RegisteredAgent)
    (hb : aid ∈ bucketOf reg.skill_to_agents sid)
    (ha : alookup reg.agents aid = some a) (hh : a.is_healthy = true) :
    a ∈ discover_agents_by_skill reg sid := by
  unfold discover_agents_by_skill
  refine List.mem_filterMap.mpr ⟨aid, ?_, ?_⟩
  · simpa [bucketOf] using hb
  · simp [ha, hh]

theorem discover_mem_healthy (reg : AgentRegistry) (sid : String) (a : RegisteredAgent)
    (h : a ∈ discover_agents_by_skill reg sid) : a.is_healthy = true := by
  unfold discover_agents_by_skill at h
  rcases List.mem_filterMap.mp h with ⟨aid, _, hfa⟩
  cases hl : alookup reg.agents aid with
  | none => rw [hl] at hfa; cases hfa
  | some b =>
    rw [hl] at hfa
    by_cases hb : b.is_healthy
    · simp [hb] at hfa
      rw [← hfa]
      exact hb
    · simp [hb] at hfa

/-! ## Concrete registration scenario used by the counterexamples -/

/-- First registration of the weather agent: one skill `sunny_check`. -/
def cardWeatherOld : AgentCard :=
  { name := some "weather", description := some "d", url := some "http://h:7001",
    skills := some (.list [{ id := some "sunny_check" }]) }

/-- Re-registration of the same identity (same name and port) with the
skill list replaced by `tv_control` only. -/
def cardWeatherNew : AgentCard :=
  { name := some "weather", description := some "d2", url := some "http://h:7001",
    skills := some (.list [{ id := some "tv_control" }]) }

/-- Registry state after registering `cardWeatherOld` and then
re-registering `cardWeatherNew` under the same identity. -/
def regAfterRereg : AgentRegistry :=
  (register_agent (register_agent emptyRegistry cardWeatherOld).2 cardWeatherNew).2

/-- C1, counterexample.  After re-registering the same identity with the
skill list `[tv_control]`, `discover("sunny_check")` still yields the
agent — the stored descriptor now lists only `tv_control`, but the skill
index never removes old entries.  The claim's final clause (a skill id
present only in the earlier registration no longer yields the agent) is
therefore false at this input. -/
theorem reregister_stale_skill_counterexample :
    (discover_agents_by_skill regAfterRereg "sunny_check").map (fun a => a.agent_id)
        = ["weather-7001"] ∧
    (alookup regAfterRereg.agents "weather-7001").map (fun a => a.skills)
        = some [{ id := some "tv_control" }] := by
  decide

/-- C1, amended.  A later successful registration with the same derived
identity overwrites the stored descriptor (not merged) and replaces its
stored skill list; afterwards `discover` yields the agent for every
(truthy) skill id of the new list — but a skill id registered earlier
STILL yields the agent, because index entries are only ever added. -/
theorem reregister_overwrites_descriptor_index_add_only
    (reg : AgentRegistry) (cardOld cardNew : AgentCard) (uOld uNew : String)
    (huo : cardOld.url = some uOld) (hno : uOld ≠ "")
    (hun : cardNew.url = some uNew) (hnn : uNew ≠ "")
    (hvo : validate_agent_card cardOld = true) (hvn : validate_agent_card cardNew = true)
    (hid : deriveAgentId (cardOld.name.getD "Unknown") uOld
         = deriveAgentId (cardNew.name.getD "Unknown") uNew) :
    (register_agent reg cardOld).1 = true ∧
    (register_agent (register_agent reg cardOld).2 cardNew).1 = true ∧
    alookup (register_agent (register_agent reg cardOld).2 cardNew).2.agents
        (deriveAgentId (cardNew.name.getD "Unknown") uNew)
      = some (mkRegisteredAgent (deriveAgentId (cardNew.name.getD "Unknown") uNew) cardNew) ∧
    (∀ sk ∈ cardSkillEntries cardNew, ∀ sid, sk.id = some sid → sid ≠ "" →
      mkRegisteredAgent (deriveAgentId (cardNew.name.getD "Unknown") uNew) cardNew
        ∈ discover_agents_by_skill (register_agent (register_agent reg cardOld).2 cardNew).2 sid) ∧
    (∀ sk ∈ cardSkillEntries cardOld, ∀ sid, sk.id = some sid → sid ≠ "" →
      mkRegisteredAgent (deriveAgentId (cardNew.name.getD "Unknown") uNew) cardNew
        ∈ discover_agents_by_skill (register_agent (register_agent reg cardOld).2 cardNew).2 sid) := by
  have e1 := register_agent_success reg cardOld uOld huo hno hvo
  rw [hid] at e1
  have e2 := register_agent_success (register_agent reg cardOld).2 cardNew uNew hun hnn hvn
  refine ⟨by rw [e1], by rw [e2], ?_, ?_, ?_⟩
  · rw [e2]
    exact alookup_aupdate_self ..
  · intro sk hsk sid hidk hne
    refine mem_discover_of_bucket _ sid (deriveAgentId (cardNew.name.getD "Unknown") uNew) _
      ?_ ?_ rfl
    · rw [e2]
      exact mem_bucketOf_update_self _ (cardSkillEntries cardNew) _ sk hsk sid hidk hne
    · rw [e2]
      exact alookup_aupdate_self ..
  · intro sk hsk sid hidk hne
    have hb1 : deriveAgentId (cardNew.name.getD "Unknown") uNew
        ∈ bucketOf (register_agent reg cardOld).2.skill_to_agents sid := by
      rw [e1]
      exact mem_bucketOf_update_self _ (cardSkillEntries cardOld) _ sk hsk sid hidk hne
    refine mem_discover_of_bucket _ sid (deriveAgentId (cardNew.name.getD "Unknown") uNew) _
      ?_ ?_ rfl
    · rw [e2]
      exact mem_bucketOf_update_mono _ (cardSkillEntries cardNew) _ sid _ hb1
    · rw [e2]
      exact alookup_aupdate_self ..

/-- C1, witness: the amended theorem applied to the concrete weather-agent
scenario, old skill `sunny_check` still discoverable after re-registering
with `[tv_control]`. -/
theorem reregister_overwrites_descriptor_index_add_only_witness :
    mkRegisteredAgent "weather-7001" cardWeatherNew
      ∈ discover_agents_by_skill
          (register_agent (register_agent emptyRegistry cardWeatherOld).2 cardWeatherNew).2
          "sunny_check" :=
  (reregister_overwrites_descriptor_index_add_only emptyRegistry cardWeatherOld cardWeatherNew
      "http://h:7001" "http://h:7001" rfl (by decide) rfl (by decide) (by decide) (by decide)
      rfl).2.2.2.2
    { id := some "sunny_check" } (by decide) "sunny_check" rfl (by decide)

/-- Card with every required field present and an empty (but list-typed)
skill list. -/
def cardEmptySkills : AgentCard :=
  { name := some "weather", description := some "d", url := some "http://h:7001",
    skills := some (.list []) }

/-- C2, counterexample.  `_validate_agent_card` never checks that the
skill list is non-empty: a card with `skills = []` registers
successfully, so the claim's "rejects descriptors whose skill list is
empty" is false at this input. -/
theorem register_empty_skill_list_accepted_counterexample :
    (register_agent emptyRegistry cardEmptySkills).1 = true := by
  decide

/-- C2, amended.  Registration fails, with agent map and skill index both
unchanged (no partial state mutated), whenever a required field among
name / address / skill list is missing or the skill list is not
list-typed; an empty skill list, however, is accepted. -/
theorem register_rejects_malformed_state_unchanged (reg : AgentRegistry) (card : AgentCard)
    (h : card.name = none ∨ card.url = none ∨ card.url = some "" ∨
         card.skills = none ∨ card.skills = some .nonList) :
    register_agent reg card = (false, reg) := by
  cases hu : card.url with
  | none => simp [register_agent, hu]
  | some u =>
    by_cases hue : u = ""
    · simp [register_agent, hu, hue]
    · have hv : validate_agent_card card = false := by
        rcases h with h | h | h | h | h
        · simp [validate_agent_card, h]
        · rw [h] at hu; cases hu
        · rw [h] at hu
          injection hu with hq
          exact absurd hq.symm hue
        · simp [validate_agent_card, h]
        · simp [validate_agent_card, h]
      simp [register_agent, hu, hue, hv]

/-- C2, witness: a card missing its `name` field is rejected with the
registry unchanged. -/
theorem register_rejects_malformed_state_unchanged_witness :
    register_agent emptyRegistry
        { name := none, description := some "d", url := some "http://h:7001",
          skills := some (.list [{ id := some "s" }]) }
      = (false, emptyRegistry) :=
  register_rejects_malformed_state_unchanged emptyRegistry _ (Or.inl rfl)

/-- C6, counterexample.  In the re-registration scenario,
`discover("sunny_check")` returns a (healthy) agent whose current skill
set is `[tv_control]` — i.e. an agent whose skill set does NOT contain
the requested skill id, so "returns exactly the agents ... whose skill
set contains skill_id" is false at this input. -/
theorem discover_returns_agent_without_skill_counterexample :
    (discover_agents_by_skill regAfterRereg "sunny_check").map (fun a => a.skills)
        = [[{ id := some "tv_control" }]] ∧
    "sunny_check" ∉ ([{ id := some "tv_control" }] : List SkillEntry).filterMap SkillEntry.id := by
  decide

/-- C6, amended.  `discover(skill_id)` returns only healthy agents (never
an unhealthy one), returns the empty list — not an error — when the
index has no bucket for the skill id, and immediately after a valid
registration it yields the new agent for every (truthy) skill id of its
descriptor.  The agents returned are those recorded in the skill-index
bucket (every skill they have ever registered under), not necessarily
those whose current skill set contains the id. -/
theorem discover_healthy_reflects_registration
    (reg : AgentRegistry) (sid0 : String) (card : AgentCard) (u : String)
    (hu : card.url = some u) (hne : u ≠ "") (hv : validate_agent_card card = true) :
    (∀ a ∈ discover_agents_by_skill reg sid0, a.is_healthy = true) ∧
    (alookup reg.skill_to_agents sid0 = none → discover_agents_by_skill reg sid0 = []) ∧
    (register_agent reg card).1 = true ∧
    (∀ sk ∈ cardSkillEntries card, ∀ sid, sk.id = some sid → sid ≠ "" →
      mkRegisteredAgent (deriveAgentId (card.name.getD "Unknown") u) card
        ∈ discover_agents_by_skill (register_agent reg card).2 sid) := by
  have e := register_agent_success reg card u hu hne hv
  refine ⟨fun a ha => discover_mem_healthy reg sid0 a ha, ?_, by rw [e], ?_⟩
  · intro hnone
    simp [discover_agents_by_skill, hnone]
  · intro sk hsk sid hidk hsne
    refine mem_discover_of_bucket _ sid (deriveAgentId (card.name.getD "Unknown") u) _ ?_ ?_ rfl
    · rw [e]
      exact mem_bucketOf_update_self _ (cardSkillEntries card) _ sk hsk sid hidk hsne
    · rw [e]
      exact alookup_aupdate_self ..

/-- C6, witness: immediately after the valid registration of the weather
agent, `discover("sunny_check")` yields it. -/
theorem discover_healthy_reflects_registration_witness :
    mkRegisteredAgent "weather-7001" cardWeatherOld
      ∈ discover_agents_by_skill (register_agent emptyRegistry cardWeatherOld).2 "sunny_check" :=
  (discover_healthy_reflects_registration emptyRegistry "nonexistent_skill" cardWeatherOld
      "http://h:7001" rfl (by decide) (by decide)).2.2.2
    { id := some "sunny_check" } (by decide) "sunny_check" rfl (by decide)

/-! ## Context manager (`src/context_manager.py`, class `ContextManager`) -/

/-- `ContextData` dataclass (timestamps and free-form `metadata` omitted:
no embedded operation branches on them). -/
structure ContextData where
  session_id : String
  user_request : String
  agents_responses : List (String × String)
  extracted_info : List (String × String)
  execution_order : List String
  deriving Repr, DecidableEq

/-- The `ContextManager.contexts` dictionary: session_id → ContextData. -/
abbrev CMState := List (String × ContextData)

/-- `ContextManager.create_session` (the fresh uuid is a parameter). -/
def create_session (cm : CMState) (session_id user_request : String) : CMState :=
  aupdate cm session_id
    { session_id := session_id, user_request := user_request,
      agents_responses := [], extracted_info := [], execution_order := [] }

/-- Deletion of a key (Python `del d[k]`), used by `cleanup_session`. -/
def aerase {α : Type} : List (String × α) → String → List (String × α)
  | [], _ => []
  | p :: rest, k => if p.1 = k then rest else p :: aerase rest k

/-- `ContextManager.cleanup_session`: drop the session when present. -/
def cleanup_session (cm : CMState) (session_id : String) : CMState :=
  match alookup cm session_id with
  | some _ => aerase cm session_id
  | none => cm

/-- The context block appended by `create_contextual_request` (the
f-string in `src/context_manager.py`): a delimited section naming the
last executed skill and its extracted information. -/
def contextBlock (last_skill extracted : String) : String :=
  "\n\n[이전 에이전트 정보]\n처리 에이전트: " ++ last_skill ++
    "\n추출된 정보: " ++ extracted ++ "\n\n위 정보를 참고하여 요청을 처리해주세요."

/-- `ContextManager.create_contextual_request`.  Unknown session or no
prior agent response → the original request unchanged; otherwise the
original request plus the context block for the most recent entry of the
execution-order record.  (The `skill_id` / `connection_type` parameters
are accepted but unused, exactly as in the source.) -/
def create_contextual_request (cm : CMState) (session_id original_request : String)
    (skill_id connection_type : String) : String :=
  match alookup cm session_id with
  | none => original_request
  | some cd =>
    if cd.agents_responses.isEmpty then original_request
    else
      match cd.execution_order.getLast? with
      | some last_skill =>
          original_request ++
            contextBlock last_skill ((alookup cd.extracted_info last_skill).getD "")
      | none => original_request

/-- `ContextManager.store_agent_response`: store/overwrite the skill's
response and append the skill id to the execution-order record if not
already present; no-op when the session is unknown.  (`execution_index`
is accepted but never stored, as in the source.) -/
def store_agent_response (cm : CMState) (session_id skill_id response : String)
    (execution_index : Option Nat) : CMState :=
  match alookup cm session_id with
  | none => cm
  | some cd =>
    aupdate cm session_id
      { cd with
        agents_responses := aupdate cd.agents_responses skill_id response
        execution_order :=
          if skill_id ∈ cd.execution_order then cd.execution_order
          else cd.execution_order ++ [skill_id] }

/-- Store an extracted-context string for a skill when the session exists
(the guarded dictionary writes inside `extract_contextual_info`). -/
def set_extracted_info (cm : CMState) (session_id skill_id info : String) : CMState :=
  match alookup cm session_id with
  | none => cm
  | some cd =>
    aupdate cm session_id { cd with extracted_info := aupdate cd.extracted_info skill_id info }

/-- Outcome of the understanding call inside `extract_contextual_info`:
either some exception was raised on the way (prompt building,
`chat_completion`, or `json.loads`), or the call succeeded and
`result.get("extracted_info", "")` produced the given string. -/
inductive ExtractOutcome where
  | failure
  | success (extracted_info : String)
  deriving Repr, DecidableEq

/-- `ContextManager.extract_contextual_info`.  On success the extraction
is stored and returned, unless it is empty, in which case the first 100
characters of the raw response plus an ellipsis are returned instead; on
any failure a naive truncation of the raw response (first 100 characters,
ellipsis only when actually truncated) is stored and returned. -/
def extract_contextual_info (cm : CMState) (session_id agent_response skill_id : String)
    (outcome : ExtractOutcome) : String × CMState :=
  match outcome with
  | .success extracted =>
    let cm' := set_extracted_info cm session_id skill_id extracted
    (if extracted ≠ "" then extracted else agent_response.take 100 ++ "...", cm')
  | .failure =>
    let summary :=
      if agent_response.length > 100 then agent_response.take 100 ++ "..." else agent_response
    (summary, set_extracted_info cm session_id skill_id summary)

/-- C10: operations on a session id that is absent from the context store
(never created or already cleaned up).  `create_contextual_request`
returns the original text unchanged — it reads but never writes the store
(its Lean type returns only a string, mirroring the write-free source) —
and `store_agent_response` leaves the store exactly as it was: no session
is created or resurrected, and neither operation fails. -/
theorem missing_session_noop (cm : CMState) (session_id original skill_id ct response : String)
    (ei : Option Nat) (h : alookup cm session_id = none) :
    create_contextual_request cm session_id original skill_id ct = original ∧
    store_agent_response cm session_id skill_id response ei = cm := by
  constructor
  · simp [create_contextual_request, h]
  · simp [store_agent_response, h]

/-- C10, witness: a cleaned-up session id on a store that never held it. -/
theorem missing_session_noop_witness :
    create_contextual_request (cleanup_session (create_session [] "s1" "hello") "s1")
        "s1" "hello" "weather" "" = "hello" ∧
    store_agent_response (cleanup_session (create_session [] "s1" "hello") "s1")
        "s1" "weather" "resp" (some 0)
      = cleanup_session (create_session [] "s1" "hello") "s1" :=
  missing_session_noop _ "s1" "hello" "weather" "" "resp" (some 0) (by decide)

/-- C9: `extract_contextual_info` never raises (it is a total function)
and always returns a string: on any failure it returns the naive
truncation of the raw response to its first 100 characters (with an
ellipsis when the response was actually longer), and when the
understanding call succeeds but yields an empty extraction it likewise
falls back to the first 100 characters plus an ellipsis. -/
theorem extract_contextual_info_fallbacks
    (cm : CMState) (session_id agent_response skill_id : String) (outcome : ExtractOutcome)
    (h : outcome = .failure ∨ outcome = .success "") :
    (outcome = .failure →
      (extract_contextual_info cm session_id agent_response skill_id outcome).1 =
        (if agent_response.length > 100 then agent_response.take 100 ++ "..."
         else agent_response)) ∧
    (outcome = .success "" →
      (extract_contextual_info cm session_id agent_response skill_id outcome).1 =
        agent_response.take 100 ++ "...") := by
  constructor
  · intro hf
    subst hf
    rfl
  · intro hs
    subst hs
    simp [extract_contextual_info]

set_option maxRecDepth 4000 in
/-- C9, witness: both fallback branches at a concrete 150-character
response. -/
theorem extract_contextual_info_fallbacks_witness :
    (extract_contextual_info [] "s1" (String.mk (List.replicate 150 'x')) "weather"
        .failure).1 = String.mk (List.replicate 100 'x') ++ "..." ∧
    (extract_contextual_info [] "s1" "short response" "weather"
        (.success "")).1 = "short response" ++ "..." := by
  constructor
  · have h := (extract_contextual_info_fallbacks [] "s1"
      (String.mk (List.replicate 150 'x')) "weather" .failure (Or.inl rfl)).1 rfl
    rw [h]
    decide
  · exact (extract_contextual_info_fallbacks [] "s1" "short response" "weather"
      (.success "") (Or.inr rfl)).2 rfl

/-! ## Agent RPC (`MainAgentExecutor._call_agent`) -/

/-- One item of a `parts` array in the RPC response body: a dictionary of
kind `"text"` (whose `text` key may be absent), or anything else
(non-dictionary item or other kind), which the extraction loops skip. -/
inductive PartVal where
  | textPart (text : Option String)
  | otherPart
  deriving Repr, DecidableEq

/-- Shape of `result["result"]`, matched in the source's priority order:
a `kind == "message"` dictionary with `parts`, a dictionary with
`artifacts` (each artifact optionally holding `parts`), a dictionary with
direct `parts`, or any other shape (which extracts nothing). -/
inductive ResultData where
  | message (parts : List PartVal)
  | artifacts (arts : List (Option (List PartVal)))
  | directParts (parts : List PartVal)
  | otherShape
  deriving Repr, DecidableEq

/-- Outcome of the single HTTP POST inside `_call_agent`: any raised
exception (connection error, timeout, JSON decoding, ...) or a response
with a status code and — for parsed bodies — an optional `result`
value. -/
inductive CallOutcome where
  | transportError
  | httpResponse (status : Nat) (result : Option ResultData)
  deriving Repr, DecidableEq

/-- The `httpx.AsyncClient(timeout=10.0)` bound, in seconds. -/
def call_agent_timeout_seconds : Nat := 10

/-- First `kind == "text"` part of a parts array: its `text` value, or the
given default when the `text` key is absent. -/
def firstTextPart (default : String) (parts : List PartVal) : Option String :=
  parts.findSome? fun p =>
    match p with
    | .textPart t => some (t.getD default)
    | .otherPart => none

/-- `MainAgentExecutor._call_agent`, as a function of the agent's name and
the transport outcome.  Total by construction: every branch, including
non-success statuses and transport errors, returns a string. -/
def call_agent (agentName : String) (outcome : CallOutcome) : String :=
  match outcome with
  | .transportError => agentName ++ "와의 통신 중 오류가 발생했습니다."
  | .httpResponse status result =>
    if status = 200 then
      let received := agentName ++ "에서 응답을 받았습니다."
      let extracted : Option String :=
        match result with
        | some (.message parts) => firstTextPart received parts
        | some (.artifacts arts) => arts.findSome? fun a => a.bind (firstTextPart received)
        | some (.directParts parts) => firstTextPart received parts
        | some .otherShape => none
        | none => none
      extracted.getD (agentName ++ "에서 응답을 처리했습니다.")
    else agentName ++ " 요청이 실패했습니다. (상태: " ++ toString status ++ ")"

/-- C5: `call_agent` never raises (it is total); every transport error and
every non-success HTTP status yields a descriptive failure string naming
the agent, and the single RPC carries the fixed bounded timeout of 10
seconds. -/
theorem call_agent_failure_strings (agentName : String) (outcome : CallOutcome)
    (h : outcome = .transportError ∨
         ∃ status result, outcome = .httpResponse status result ∧ status ≠ 200) :
    (outcome = .transportError →
      call_agent agentName outcome = agentName ++ "와의 통신 중 오류가 발생했습니다.") ∧
    (∀ status result, outcome = .httpResponse status result → status ≠ 200 →
      call_agent agentName outcome
        = agentName ++ " 요청이 실패했습니다. (상태: " ++ toString status ++ ")") ∧
    call_agent_timeout_seconds = 10 ∧ 0 < call_agent_timeout_seconds := by
  refine ⟨?_, ?_, rfl, by decide⟩
  · intro he
    subst he
    rfl
  · intro status result he hne
    subst he
    simp [call_agent, hne]

/-- C5, witness: a 500 response from the weather agent produces the
status failure string. -/
theorem call_agent_failure_strings_witness :
    call_agent "Weather Agent" (CallOutcome.httpResponse 500 none)
      = "Weather Agent" ++ " 요청이 실패했습니다. (상태: " ++ toString 500 ++ ")" :=
  (call_agent_failure_strings "Weather Agent" (CallOutcome.httpResponse 500 none)
      (Or.inr ⟨500, none, rfl, by decide⟩)).2.1 500 none rfl (by decide)

/-! ## Dependency analysis (`MainAgentExecutor._analyze_agent_dependencies`) -/

/-- JSON object parsed from the dependency-analysis completion; each key
may be absent, in which case the source's `result.get` defaults apply. -/
structure DepJson where
  is_sequential : Option Bool
  execution_order : Option (List String)
  reasoning : Option String
  deriving Repr, DecidableEq

/-- Outcome of the dependency-analysis understanding call: `failure` when
`chat_completion` raised or `json.loads` could not parse the cleaned
response, otherwise the parsed object. -/
inductive DepOutcome where
  | failure
  | success (parsed : DepJson)
  deriving Repr, DecidableEq

/-- The dictionary returned by `_analyze_agent_dependencies`. -/
structure DepResult where
  is_sequential : Bool
  execution_order : List String
  reasoning : String
  deriving Repr, DecidableEq

/-- `MainAgentExecutor._analyze_agent_dependencies`: parsed result with
`get`-defaults on success; on any failure the fixed parallel plan over
the input skills, in their original order. -/
def analyze_agent_dependencies (agent_skills_needed : List String)
    (outcome : DepOutcome) : DepResult :=
  match outcome with
  | .failure =>
    { is_sequential := false, execution_order := agent_skills_needed,
      reasoning := "분석 실패로 인한 병렬 실행" }
  | .success j =>
    { is_sequential := j.is_sequential.getD false,
      execution_order := j.execution_order.getD agent_skills_needed,
      reasoning := j.reasoning.getD "LLM 기반 분석" }

/-- C7: when the dependency analysis's understanding call fails or its
result is unparseable, the plan is non-sequential (parallel) with
execution order equal to the input skill list in its original order; the
failure is absorbed (the embedded function is total, never an error). -/
theorem dependency_failure_parallel_input_order (agent_skills_needed : List String)
    (outcome : DepOutcome) (h : outcome = .failure) :
    (analyze_agent_dependencies agent_skills_needed outcome).is_sequential = false ∧
    (analyze_agent_dependencies agent_skills_needed outcome).execution_order
      = agent_skills_needed := by
  subst h
  exact ⟨rfl, rfl⟩

/-- C7, witness: the fail-safe plan over two concrete skills. -/
theorem dependency_failure_parallel_input_order_witness :
    (analyze_agent_dependencies ["weather", "tv_control"] .failure).is_sequential = false ∧
    (analyze_agent_dependencies ["weather", "tv_control"] .failure).execution_order
      = ["weather", "tv_control"] :=
  dependency_failure_parallel_input_order ["weather", "tv_control"] .failure rfl

/-! ## Query analysis (`src/dynamic_query_analyzer.py`) -/

/-- `EntityExtraction` dataclass (confidence as an exact rational). -/
structure EntityExtraction where
  entity_type : String
  value : String
  confidence : ℚ
  deriving Repr, DecidableEq

/-- `RequestAnalysis` dataclass. -/
structure RequestAnalysis where
  request_type : String
  domains : List String
  confidence : ℚ
  entities : List EntityExtraction
  requires_multiple_agents : Bool
  agent_skills_needed : List String
  deriving Repr, DecidableEq

/-- The structured result of `_classify_request_dynamic`'s understanding
call. -/
structure ClassifyResult where
  request_type : String
  domains : List String
  confidence : ℚ
  deriving Repr, DecidableEq

/-- Outcome of `_classify_request_dynamic`: the parsed structured result,
or a failure, in which case the registry-derived fallback domains
(`_get_fallback_domains`) are carried by the oracle. -/
inductive ClassifyOutcome where
  | failure (fallback_domains : List String)
  | success (result : ClassifyResult)
  deriving Repr, DecidableEq

/-- `_classify_request_dynamic`: the parsed result, or on failure the
fixed `single_domain` / confidence 0.5 fallback over the fallback
domains. -/
def classify_request_dynamic (outcome : ClassifyOutcome) : ClassifyResult :=
  match outcome with
  | .success r => r
  | .failure fallback =>
    { request_type := "single_domain", domains := fallback, confidence := 1/2 }

/-- Outcome of `_extract_entities_dynamic`'s understanding call: failure,
or the parsed `entities` map together with the (already defaulted)
confidence value. -/
inductive EntitiesOutcome where
  | failure
  | success (entities : List (String × String)) (confidence : ℚ)
  deriving Repr, DecidableEq

/-- `_extract_entities_dynamic`: empty list on failure; otherwise one
`EntityExtraction` per entry with a truthy (non-empty) value. -/
def extract_entities_dynamic (outcome : EntitiesOutcome) : List EntityExtraction :=
  match outcome with
  | .failure => []
  | .success pairs conf =>
    pairs.filterMap fun p =>
      if p.2 ≠ "" then some { entity_type := p.1, value := p.2, confidence := conf } else none

/-- `DynamicQueryAnalyzer._check_multiple_agents_needed`. -/
def check_multiple_agents_needed (r : ClassifyResult) : Bool :=
  r.request_type == "multi_domain" && decide (1 < r.domains.length)

/-- Outcome of `_identify_required_skills_via_llm`: the parsed
`required_skills` list, or a failure carrying the registry-derived
fallback skills (`_get_fallback_skills`). -/
inductive SkillsOutcome where
  | failure (fallback_skills : List String)
  | success (skills : List String)
  deriving Repr, DecidableEq

def identify_required_skills_via_llm (outcome : SkillsOutcome) : List String :=
  match outcome with
  | .failure fallback => fallback
  | .success skills => skills

/-- `DynamicQueryAnalyzer.analyze_query`, assembling the analysis from the
classification, entity-extraction and skill-identification steps. -/
def analyze_query (co : ClassifyOutcome) (eo : EntitiesOutcome) (so : SkillsOutcome) :
    RequestAnalysis :=
  let r := classify_request_dynamic co
  { request_type := r.request_type
    domains := r.domains
    confidence := r.confidence
    entities := extract_entities_dynamic eo
    requires_multiple_agents := check_multiple_agents_needed r
    agent_skills_needed := identify_required_skills_via_llm so }

/-- C8: for every analysis result produced by `analyze_query`,
`requires_multiple_agents` is true if and only if the request type equals
"multi_domain" and more than one domain was matched. -/
theorem requires_multiple_agents_iff (co : ClassifyOutcome) (eo : EntitiesOutcome)
    (so : SkillsOutcome) :
    (analyze_query co eo so).requires_multiple_agents = true ↔
      ((analyze_query co eo so).request_type = "multi_domain" ∧
        1 < (analyze_query co eo so).domains.length) := by
  cases co with
  | success r =>
    simp [analyze_query, classify_request_dynamic, check_multiple_agents_needed,
      Bool.and_eq_true, beq_iff_eq, decide_eq_true_iff]
  | failure fallback =>
    simp [analyze_query, classify_request_dynamic, check_multiple_agents_needed,
      Bool.and_eq_true, beq_iff_eq, decide_eq_true_iff]

/-! ## Response aggregation (`MainAgentExecutor._aggregate_multi_domain_responses`) -/

/-- Python `str.strip()` over the character list: drop leading and
trailing whitespace. -/
def pyStrip (s : String) : String :=
  String.mk (((s.data.dropWhile Char.isWhitespace).reverse.dropWhile Char.isWhitespace).reverse)

/-- Python `str.title()` (ASCII behaviour): the first alphabetic character
after a non-alphabetic one is uppercased, later alphabetic characters of
the same run are lowercased. -/
def titleChars : Bool → List Char → List Char
  | _, [] => []
  | prevAlpha, c :: cs =>
    (if c.isAlpha then (if prevAlpha then c.toLower else c.toUpper) else c)
      :: titleChars c.isAlpha cs

def pyTitle (s : String) : String := String.mk (titleChars false s.data)

/-- `skill_id.replace("_", " ")` — a single-character pattern, hence
character-wise. -/
def underscoreToSpace (s : String) : String :=
  String.mk (s.data.map fun c => if c = '_' then ' ' else c)

/-- Fixed first line of `_fallback_response_aggregation`. -/
def aggregationHeader : String := "여러 에이전트의 응답을 종합한 결과입니다:\n\n"

/-- Fixed closing line of `_fallback_response_aggregation`. -/
def aggregationClosing : String := "위 정보들을 종합하여 요청을 처리해드렸습니다."

/-- The labeled heading plus response appended for one skill. -/
def responseChunk (p : String × String) : String :=
  "🔸 **" ++ pyTitle (underscoreToSpace p.1) ++ "**: " ++ p.2 ++ "\n\n"

/-- `MainAgentExecutor._fallback_response_aggregation`: header, one
labeled chunk per collected response in order, closing line, stripped.
Pure string formatting — no call can fail. -/
def fallback_response_aggregation (responses : List (String × String)) : String :=
  pyStrip
    ((responses.foldl (fun acc p => acc ++ responseChunk p) aggregationHeader)
      ++ aggregationClosing)

/-- Outcome of the aggregation understanding call
(`_intelligent_response_aggregation` → `chat_completion`): the stripped
completion text on success, or a raised exception. -/
inductive AggregateOutcome where
  | failure
  | success (text : String)
  deriving Repr, DecidableEq

/-- `MainAgentExecutor._aggregate_multi_domain_responses`: the primary
understanding-call text when that call succeeds (returned verbatim),
otherwise the deterministic fallback aggregation. -/
def aggregate_multi_domain_responses (outcome : AggregateOutcome)
    (responses : List (String × String)) : String :=
  match outcome with
  | .success text => text
  | .failure => fallback_response_aggregation responses

theorem foldl_data_extends (f : String × String → String) (l : List (String × String))
    (init : String) :
    ∃ t : List Char, (l.foldl (fun acc p => acc ++ f p) init).data = init.data ++ t := by
  induction l generalizing init with
  | nil => exact ⟨[], by simp⟩
  | cons p rest ih =>
    obtain ⟨t, ht⟩ := ih (init ++ f p)
    refine ⟨(f p).data ++ t, ?_⟩
    rw [List.foldl_cons, ht, String.data_append, List.append_assoc]

theorem pyStrip_ne_empty (s : String) (c : Char) (t : List Char)
    (hdata : s.data = c :: t) (hc : c.isWhitespace = false) : pyStrip s ≠ "" := by
  intro he
  have hdata2 :
      ((s.data.dropWhile Char.isWhitespace).reverse.dropWhile Char.isWhitespace).reverse
        = [] := by
    have := congrArg String.data he
    simpa [pyStrip] using this
  rw [List.reverse_eq_nil_iff] at hdata2
  have hall := List.dropWhile_eq_nil_iff.mp hdata2
  have h1 : s.data.dropWhile Char.isWhitespace = c :: t := by
    rw [hdata]
    simp [List.dropWhile_cons, hc]
  have hcmem : c ∈ (s.data.dropWhile Char.isWhitespace).reverse := by
    rw [h1]
    simp
  exact absurd (hall c hcmem) (by simp [hc])

/-- C3, counterexample.  When the primary understanding call succeeds,
its text is returned verbatim: an empty completion makes the aggregate
return the empty string, so "never returns an empty string for every
combination of per-skill responses" is false at this input (one perfectly
ordinary response, empty primary text). -/
theorem aggregate_empty_success_counterexample :
    aggregate_multi_domain_responses (.success "") [("weather", "ok")] = "" := rfl

/-- C3, amended.  `aggregate` never raises (it is total); whenever the
primary understanding call fails it returns the deterministic
concatenation of each skill's response under a labeled heading with a
short closing line, and that fallback always succeeds and is never empty
— for zero, one or many responses, including all-failure response maps.
When the primary call succeeds its text is returned verbatim, so the
result can only be empty if the understanding capability returned empty
text. -/
theorem aggregate_failure_fallback_nonempty (responses : List (String × String)) :
    aggregate_multi_domain_responses .failure responses
        = fallback_response_aggregation responses ∧
    fallback_response_aggregation responses ≠ "" ∧
    (∀ text, aggregate_multi_domain_responses (.success text) responses = text) := by
  refine ⟨rfl, ?_, fun _ => rfl⟩
  obtain ⟨t, ht⟩ := foldl_data_extends responseChunk responses aggregationHeader
  have hhead : aggregationHeader.data = '여' :: aggregationHeader.data.tail := by decide
  have hfull :
      ((responses.foldl (fun acc p => acc ++ responseChunk p) aggregationHeader)
          ++ aggregationClosing).data
        = '여' :: (aggregationHeader.data.tail ++ t ++ aggregationClosing.data) := by
    rw [String.data_append, ht]
    rw [hhead]
    simp [List.append_assoc]
  exact pyStrip_ne_empty _ '여' _ hfull (by decide)

/-! ## Sequential execution (`MainAgentExecutor._execute_sequential_agents`) -/

/-- Record of one iteration of the sequential execution loop: the skill,
the request text sent to its agent (`none` when discovery found no agent
and only the placeholder error string was recorded), and the response
stored for the skill. -/
structure SeqStep where
  skill_id : String
  request_sent : Option String
  response : String
  deriving Repr, DecidableEq

/-- Context-manager state evolution of one successful iteration of the
sequential loop: store the agent response (with the enumeration index),
and — only for the first iteration (`i = 0`) — run context extraction on
that response. -/
def seqStepState (session_id : String) (respOracle : Nat → String)
    (extractOutcome : ExtractOutcome) (i : Nat) (cm : CMState) (skill_id : String) : CMState :=
  if i = 0 then
    (extract_contextual_info
        (store_agent_response cm session_id skill_id (respOracle i) (some i))
        session_id (respOracle i) skill_id extractOutcome).2
  else store_agent_response cm session_id skill_id (respOracle i) (some i)

/-- The loop of `MainAgentExecutor._execute_sequential_agents` over the
decided execution order, enumerated from `i`.  A skill with no discovered
agent records a placeholder error and continues; otherwise the first
agent is called — with the raw user text for `i = 0` and with the
contextual request for `i > 0` — and the context manager is updated.  The
per-step agent response is supplied by an oracle indexed by the step
(each call is one `_call_agent` RPC, itself modelled separately). -/
def execute_sequential_loop (user_text session_id connection_type : String)
    (agents_by_skill : String → List RegisteredAgent)
    (respOracle : Nat → String) (extractOutcome : ExtractOutcome) :
    Nat → CMState → List String → List SeqStep
  | _, _, [] => []
  | i, cm, skill_id :: rest =>
    match agents_by_skill skill_id with
    | [] =>
      { skill_id := skill_id, request_sent := none,
        response := skill_id ++ " 처리 중 오류가 발생했습니다." }
        :: execute_sequential_loop user_text session_id connection_type agents_by_skill
            respOracle extractOutcome (i + 1) cm rest
    | _ :: _ =>
      { skill_id := skill_id,
        request_sent := some (if 0 < i then
            create_contextual_request cm session_id user_text skill_id connection_type
          else user_text),
        response := respOracle i }
        :: execute_sequential_loop user_text session_id connection_type agents_by_skill
            respOracle extractOutcome (i + 1)
            (seqStepState session_id respOracle extractOutcome i cm skill_id) rest

theorem isEmpty_false_of_ne_nil {α : Type} {l : List α} (h : l ≠ []) : l.isEmpty = false := by
  cases l with
  | nil => exact absurd rfl h
  | cons a t => rfl

theorem store_agent_response_session (cm : CMState) (sid skill resp : String) (ei : Option Nat)
    (cd : ContextData) (h : alookup cm sid = some cd) :
    alookup (store_agent_response cm sid skill resp ei) sid
      = some { cd with
          agents_responses := aupdate cd.agents_responses skill resp
          execution_order := if skill ∈ cd.execution_order then cd.execution_order
                             else cd.execution_order ++ [skill] } := by
  unfold store_agent_response
  rw [h]
  exact alookup_aupdate_self ..

theorem set_extracted_info_session (cm : CMState) (sid skill info : String) (cd : ContextData)
    (h : alookup cm sid = some cd) :
    alookup (set_extracted_info cm sid skill info) sid
      = some { cd with extracted_info := aupdate cd.extracted_info skill info } := by
  unfold set_extracted_info
  rw [h]
  exact alookup_aupdate_self ..

theorem extract_contextual_info_is_set (cm : CMState) (sid resp skill : String)
    (o : ExtractOutcome) :
    ∃ info, (extract_contextual_info cm sid resp skill o).2 = set_extracted_info cm sid skill info := by
  cases o with
  | success e => exact ⟨e, rfl⟩
  | failure => exact ⟨_, rfl⟩

theorem seqStepState_session (sid : String) (respO : Nat → String) (eo : ExtractOutcome)
    (i : Nat) (cm : CMState) (skill : String) (cd : ContextData)
    (h : alookup cm sid = some cd) :
    ∃ cd', alookup (seqStepState sid respO eo i cm skill) sid = some cd' ∧
      cd'.agents_responses = aupdate cd.agents_responses skill (respO i) ∧
      cd'.execution_order = (if skill ∈ cd.execution_order then cd.execution_order
                             else cd.execution_order ++ [skill]) := by
  unfold seqStepState
  have h1 := store_agent_response_session cm sid skill (respO i) (some i) cd h
  by_cases hi : i = 0
  · subst hi
    simp only [if_pos rfl]
    obtain ⟨info, hinfo⟩ := extract_contextual_info_is_set
      (store_agent_response cm sid skill (respO 0) (some 0)) sid (respO 0) skill eo
    rw [hinfo]
    exact ⟨_, set_extracted_info_session _ _ _ info _ h1, rfl, rfl⟩
  · simp only [if_neg hi]
    exact ⟨_, h1, rfl, rfl⟩

theorem seq_loop_length (U S C : String) (ab : String → List RegisteredAgent)
    (respO : Nat → String) (eo : ExtractOutcome) :
    ∀ (rest : List String) (i : Nat) (cm : CMState),
      (execute_sequential_loop U S C ab respO eo i cm rest).length = rest.length := by
  intro rest
  induction rest with
  | nil => intro i cm; rfl
  | cons s r ih =>
    intro i cm
    cases hab : ab s with
    | nil => simp [execute_sequential_loop, hab, ih]
    | cons a as => simp [execute_sequential_loop, hab, ih]

theorem seq_loop_requests (U S C : String) (ab : String → List RegisteredAgent)
    (respO : Nat → String) (eo : ExtractOutcome) :
    ∀ (rest done : List String) (cm : CMState) (cd : ContextData),
      alookup cm S = some cd →
      cd.execution_order = done →
      cd.agents_responses.isEmpty = done.isEmpty →
      (done ++ rest).Nodup →
      (∀ s ∈ rest, ab s ≠ []) →
      ∀ j, j < rest.length →
        ∃ st, (execute_sequential_loop U S C ab respO eo done.length cm rest)[j]? = some st ∧
          (done.length + j = 0 → st.request_sent = some U) ∧
          (0 < done.length + j →
            ∃ prev info, (done ++ rest)[done.length + j - 1]? = some prev ∧
              st.request_sent = some (U ++ contextBlock prev info)) := by
  intro rest
  induction rest with
  | nil =>
    intro done cm cd _ _ _ _ _ j hj
    simp at hj
  | cons skill rest2 ih =>
    intro done cm cd hsess hord hresp hnd hag j hj
    have habne := hag skill (List.mem_cons_self ..)
    cases hab : ab skill with
    | nil => exact absurd hab habne
    | cons a as =>
      have hred : execute_sequential_loop U S C ab respO eo done.length cm (skill :: rest2)
          = { skill_id := skill,
              request_sent := some (if 0 < done.length then
                  create_contextual_request cm S U skill C
                else U),
              response := respO done.length }
              :: execute_sequential_loop U S C ab respO eo (done.length + 1)
                  (seqStepState S respO eo done.length cm skill) rest2 := by
        simp only [execute_sequential_loop, hab]
      cases j with
      | zero =>
        refine ⟨_, by rw [hred]; exact List.getElem?_cons_zero, ?_, ?_⟩
        · intro h0
          have hd : done = [] := List.length_eq_zero.mp (by omega)
          simp [hd]
        · intro hpos
          have hif : 0 < done.length := by omega
          have hdne : done ≠ [] := by
            intro hh
            rw [hh] at hif
            simp at hif
          have hrespne : cd.agents_responses.isEmpty = false := by
            rw [hresp, isEmpty_false_of_ne_nil hdne]
          obtain ⟨prev, hprev⟩ : ∃ prev, done.getLast? = some prev := by
            cases hgl : done.getLast? with
            | none => exact absurd (List.getLast?_eq_none_iff.mp hgl) hdne
            | some p => exact ⟨p, rfl⟩
          refine ⟨prev, (alookup cd.extracted_info prev).getD "", ?_, ?_⟩
          · have h1 : done.length + 0 - 1 = done.length - 1 := by omega
            rw [h1, List.getElem?_append_left (by omega), ← List.getLast?_eq_getElem?]
            exact hprev
          · simp [create_contextual_request, hsess, hrespne, hord, hprev, hif]
      | succ j2 =>
        have hsknotin : skill ∉ done := by
          have h3 := List.nodup_append.mp hnd
          exact fun hmem => h3.2.2 hmem (List.mem_cons_self ..)
        have hnd' : ((done ++ [skill]) ++ rest2).Nodup := by
          rwa [List.append_cons] at hnd
        obtain ⟨cd', hcd', hcdresp, hcdord⟩ :=
          seqStepState_session S respO eo done.length cm skill cd hsess
        have hordeq : cd'.execution_order = done ++ [skill] := by
          rw [hcdord, hord]
          simp [hsknotin]
        have hrespeq : cd'.agents_responses.isEmpty = (done ++ [skill]).isEmpty := by
          rw [hcdresp, isEmpty_false_of_ne_nil (aupdate_ne_nil _ _ _),
            isEmpty_false_of_ne_nil (by simp : done ++ [skill] ≠ [])]
        have hag2 : ∀ s ∈ rest2, ab s ≠ [] := fun s hs => hag s (List.mem_cons_of_mem _ hs)
        have hj2 : j2 < rest2.length := by
          simp at hj
          omega
        have hlen1 : (done ++ [skill]).length = done.length + 1 := by simp
        obtain ⟨st, hst, _, hpos⟩ := ih (done ++ [skill])
          (seqStepState S respO eo done.length cm skill) cd' hcd' hordeq hrespeq hnd' hag2 j2 hj2
        rw [hlen1] at hst hpos
        refine ⟨st, ?_, ?_, ?_⟩
        · rw [hred, List.getElem?_cons_succ]
          exact hst
        · intro h0
          exact absurd h0 (by omega)
        · intro _
          obtain ⟨prev, info, hpi, hreq⟩ := hpos (by omega)
          refine ⟨prev, info, ?_, hreq⟩
          rw [List.append_cons]
          have hidx : done.length + (j2 + 1) - 1 = done.length + 1 + j2 - 1 := by omega
          rw [hidx]
          exact hpi

theorem contextBlock_length_pos (p i : String) : 0 < (contextBlock p i).length := by
  unfold contextBlock
  rw [String.length_append, String.length_append, String.length_append, String.length_append]
  have hfixed : 0 < ("\n\n[이전 에이전트 정보]\n처리 에이전트: " : String).length := by decide
  omega

/-- C4, amended: in a sequential execution chain over a deduplicated
execution order whose skills all have a discovered agent, started on a
freshly created session, the request sent for the first skill is the
original user text unchanged, and the request sent for every subsequent
skill is the original text plus the delimited context block naming the
most recently executed skill and its distilled context — a strictly
longer text.  (Without these two restrictions the claim fails, see the
counterexample: an unresolved skill stores nothing, so a later request
can be the raw text again, and a duplicated order makes the block name a
skill that is not the most recently executed.) -/
theorem sequential_first_unchanged_then_strictly_longer
    (user_text session_id connection_type : String)
    (agents_by_skill : String → List RegisteredAgent) (respOracle : Nat → String)
    (extractOutcome : ExtractOutcome) (order : List String) (cm : CMState) (cd : ContextData)
    (hsess : alookup cm session_id = some cd)
    (hord : cd.execution_order = []) (hresp : cd.agents_responses = [])
    (hnd : order.Nodup) (hag : ∀ s ∈ order, agents_by_skill s ≠ []) :
    (execute_sequential_loop user_text session_id connection_type agents_by_skill
        respOracle extractOutcome 0 cm order).length = order.length ∧
    (∀ st, (execute_sequential_loop user_text session_id connection_type agents_by_skill
        respOracle extractOutcome 0 cm order)[0]? = some st →
      st.request_sent = some user_text) ∧
    (∀ j, 0 < j → j < order.length →
      ∃ st prev info,
        (execute_sequential_loop user_text session_id connection_type agents_by_skill
            respOracle extractOutcome 0 cm order)[j]? = some st ∧
        order[j - 1]? = some prev ∧
        st.request_sent = some (user_text ++ contextBlock prev info) ∧
        user_text.length < (user_text ++ contextBlock prev info).length) := by
  have hmain := seq_loop_requests user_text session_id connection_type agents_by_skill
    respOracle extractOutcome order [] cm cd hsess hord (by rw [hresp]; rfl)
    (by simpa using hnd) hag
  simp only [List.length_nil, List.nil_append, Nat.zero_add] at hmain
  refine ⟨seq_loop_length user_text session_id connection_type agents_by_skill
    respOracle extractOutcome order 0 cm, ?_, ?_⟩
  · intro st hst
    have hlen0 : 0 < order.length := by
      by_contra hle
      push_neg at hle
      have horder : order = [] := List.length_eq_zero.mp (by omega)
      subst horder
      simp [execute_sequential_loop] at hst
    obtain ⟨st', hst', hzero, _⟩ := hmain 0 hlen0
    rw [hst] at hst'
    have heq : st = st' := by injection hst'
    rw [heq]
    exact hzero rfl
  · intro j hj0 hjlen
    obtain ⟨st, hst, _, hpos⟩ := hmain j hjlen
    obtain ⟨prev, info, hpi, hreq⟩ := hpos hj0
    refine ⟨st, prev, info, hst, hpi, hreq, ?_⟩
    rw [String.length_append]
    have hcb := contextBlock_length_pos prev info
    omega

/-- Concrete two-skill sequential chain used as the C4 witness: a fresh
session, both skills resolved by an agent, first-response extraction
succeeding. -/
def seqWitnessSteps : List SeqStep :=
  execute_sequential_loop "안녕" "s1" ""
    (fun _ => [mkRegisteredAgent "weather-7001" cardWeatherOld])
    (fun _ => "응답") (.success "정보") 0 (create_session [] "s1" "안녕")
    ["weather", "tv_control"]

/-- C4, witness: the theorem applied to the concrete two-skill chain. -/
theorem sequential_first_unchanged_then_strictly_longer_witness :
    seqWitnessSteps.length = (["weather", "tv_control"] : List String).length ∧
    (∀ st, seqWitnessSteps[0]? = some st → st.request_sent = some "안녕") ∧
    (∀ j, 0 < j → j < (["weather", "tv_control"] : List String).length →
      ∃ st prev info, seqWitnessSteps[j]? = some st ∧
        (["weather", "tv_control"] : List String)[j - 1]? = some prev ∧
        st.request_sent = some ("안녕" ++ contextBlock prev info) ∧
        ("안녕" : String).length < ("안녕" ++ contextBlock prev info).length) :=
  sequential_first_unchanged_then_strictly_longer "안녕" "s1" ""
    (fun _ => [mkRegisteredAgent "weather-7001" cardWeatherOld]) (fun _ => "응답")
    (.success "정보") ["weather", "tv_control"] (create_session [] "s1" "안녕")
    { session_id := "s1", user_request := "안녕", agents_responses := [],
      extracted_info := [], execution_order := [] }
    rfl rfl rfl (by decide) (fun s _ => List.cons_ne_nil _ _)

/-- Sequential chain whose first skill resolves to no agent: the loop
records the placeholder error and continues without storing anything in
the session. -/
def seqUnresolvedFirstSteps : List SeqStep :=
  execute_sequential_loop "안녕" "s1" ""
    (fun s => if s = "tv_control" then [mkRegisteredAgent "weather-7001" cardWeatherOld] else [])
    (fun _ => "응답") (.success "정보") 0 (create_session [] "s1" "안녕")
    ["weather", "tv_control"]

/-- Sequential chain over a duplicated execution order (every skill
resolves to an agent). -/
def seqDuplicateOrderSteps : List SeqStep :=
  execute_sequential_loop "안녕" "s1" ""
    (fun _ => [mkRegisteredAgent "weather-7001" cardWeatherOld])
    (fun _ => "응답") (.success "정보") 0 (create_session [] "s1" "안녕")
    ["a", "b", "a", "c"]

/-- C4, counterexample.  Two reachable sequential chains refute the claim
as stated.  First, when the first skill resolves to no agent, nothing is
stored in the session, so the second skill's request is the raw user text
"안녕" — not a strictly longer text.  Second, over the duplicated order
[a, b, a, c] the skill executed right before step 3 is `a` (step 2), but
— because `store_agent_response` appends to the execution-order record
only when the skill is not already present — the context block of the
request sent for `c` names `b`, not the most recently executed skill. -/
theorem sequential_chain_corner_cases_counterexample :
    seqUnresolvedFirstSteps.map SeqStep.request_sent = [none, some "안녕"] ∧
    seqDuplicateOrderSteps.map SeqStep.skill_id = ["a", "b", "a", "c"] ∧
    seqDuplicateOrderSteps[3]?.map SeqStep.request_sent
      = some (some ("안녕" ++ contextBlock "b" "")) ∧
    ("a" : String) ≠ "b" := by
  decide
